import Mathlib

/-!
The greeter service: configuration resolution and the greeting handler.

A shallow embedding of `main.go`.  The package-level flag variables
(`Verbose`, `Prefix`, `Listen`, `Version`) become the fields of `Config`, and
every function that reads or writes them takes and returns the record.  The
process environment is the lookup function behind `os.LookupEnv`, the command
line is `os.Args[1:]`, and what the process writes is a list of `Event`s.

The Go standard library calls made by `main.go` (`strconv.ParseBool`,
`flag.Parse`, `fmt` verbs, `http.ResponseWriter`) are embedded next to the
functions that call them, each marked as library behaviour.  Go strings are
byte strings; they are embedded as `String`, and the flag syntax only looks
for the ASCII bytes `-` and `=`, which no multi-byte character contains.
-/

deriving instance DecidableEq for Except

namespace Greeter

/-! ## Data model -/

/-- The four package-level flag variables of `main.go` (lines 17-21). -/
structure Config where
  Verbose : Bool
  Prefix : String
  Listen : String
  Version : Bool
  deriving DecidableEq, Repr

/-- The flag defaults given to `flag.Bool` / `flag.String` (lines 18-21). -/
def defaults : Config :=
  { Verbose := false, Prefix := "Hello", Listen := "0.0.0.0:8080", Version := false }

/-- The build metadata `brch`, `date`, `vers`, `hash` (lines 24-27); each is the
empty string unless the build embeds a value. -/
structure Build where
  brch : String
  date : String
  vers : String
  hash : String
  deriving DecidableEq, Repr

/-- The process environment as seen through `os.LookupEnv`: `none` when the
variable is not set, `some v` when it is set (also to the empty string). -/
abbrev Env := String → Option String

/-- A `*bool` argument of `parseBool`: which boolean variable it points to. -/
inductive BoolVar
  | Verbose
  | Version
  deriving DecidableEq, Repr

/-- A `*string` argument of `parseString`: which string variable it points to. -/
inductive StrVar
  | Prefix
  | Listen
  deriving DecidableEq, Repr

/-- Reading through a `*bool`. -/
def Config.getBool (c : Config) : BoolVar → Bool
  | .Verbose => c.Verbose
  | .Version => c.Version

/-- Writing through a `*bool`. -/
def Config.setBool (c : Config) : BoolVar → Bool → Config
  | .Verbose, b => { c with Verbose := b }
  | .Version, b => { c with Version := b }

/-- Reading through a `*string`. -/
def Config.getStr (c : Config) : StrVar → String
  | .Prefix => c.Prefix
  | .Listen => c.Listen

/-- Writing through a `*string`. -/
def Config.setStr (c : Config) : StrVar → String → Config
  | .Prefix, s => { c with Prefix := s }
  | .Listen, s => { c with Listen := s }

/-! ## Environment layer (`parseEnv`, `parseBool`, `parseString`) -/

/-- Go standard library, `strconv.ParseBool`: exactly the twelve spellings of
its `switch` are accepted; `none` stands for the returned syntax error. -/
def ParseBool (str : String) : Option Bool :=
  if str = "1" ∨ str = "t" ∨ str = "T" ∨ str = "true" ∨ str = "TRUE" ∨ str = "True" then
    some true
  else if str = "0" ∨ str = "f" ∨ str = "F" ∨ str = "false" ∨ str = "FALSE" ∨ str = "False" then
    some false
  else
    none

/-- A Go panic carrying the `strconv.ParseBool` error for the offending text. -/
structure Panic where
  func : String
  text : String
  deriving DecidableEq, Repr

/-- The function `parseBool` (lines 100-108): when the variable is set, its
value must parse, else the process panics; the parsed value is stored. -/
def parseBool (env : Env) (key : String) (value : BoolVar) (c : Config) : Except Panic Config :=
  match env key with
  | some val =>
    match ParseBool val with
    | none => .error { func := "ParseBool", text := val }
    | some b => .ok (c.setBool value b)
  | none => .ok c

/-- The function `parseString` (lines 110-114). -/
def parseString (env : Env) (key : String) (value : StrVar) (c : Config) : Config :=
  match env key with
  | some val => c.setStr value val
  | none => c

/-- The function `parseEnv` (lines 64-69): VERSION, VERBOSE, PREFIX, LISTEN in
this order; a panic in a step skips the rest. -/
def parseEnv (env : Env) (c : Config) : Except Panic Config :=
  match parseBool env "VERSION" .Version c with
  | .error p => .error p
  | .ok c1 =>
    match parseBool env "VERBOSE" .Verbose c1 with
    | .error p => .error p
    | .ok c2 => .ok (parseString env "LISTEN" .Listen (parseString env "PREFIX" .Prefix c2))

/-! ## Command-line layer (`flag.Parse`) -/

/-- A registered flag's value: a pointer to one of the four variables, with
its kind (`flag.Bool` or `flag.String`). -/
inductive FlagVar
  | bool (v : BoolVar)
  | str (v : StrVar)
  deriving DecidableEq, Repr

/-- The `formal` map of the default flag set: the four names registered on
lines 18-21. -/
def formal (name : String) : Option FlagVar :=
  if name = "verbose" then some (.bool .Verbose)
  else if name = "prefix" then some (.str .Prefix)
  else if name = "listen" then some (.str .Listen)
  else if name = "version" then some (.bool .Version)
  else none

/-- The errors of `(*FlagSet).parseOne` in the Go standard library. -/
inductive FlagError
  | badSyntax (arg : String)
  | help
  | notDefined (name : String)
  | invalidBool (value : String) (name : String)
  | needsArgument (name : String)
  deriving DecidableEq, Repr

/-- One call of `Value.Set` made by the flag package: the variable written and
the value stored. -/
inductive Assign
  | bool (v : BoolVar) (b : Bool)
  | str (v : StrVar) (s : String)
  deriving DecidableEq, Repr

/-- The store performed by an `Assign`. -/
def Config.assign (c : Config) : Assign → Config
  | .bool v b => c.setBool v b
  | .str v s => c.setStr v s

/-- What one call of `parseOne` returns: `(true, nil)` with the variables and
remaining arguments updated, `(false, nil)`, or `(false, err)`. -/
inductive Step
  | seen (c : Config) (args : List String) (a : Assign)
  | stop (args : List String)
  | fail (e : FlagError)
  deriving DecidableEq, Repr

/-- The loop of `parseOne` that looks for the first `=` of the flag text after
its first character: the text before it and the text after it. -/
def splitEq : List Char → Option (List Char × List Char)
  | [] => none
  | ch :: rest =>
    if ch = '=' then some ([], rest)
    else
      match splitEq rest with
      | none => none
      | some (n, v) => some (ch :: n, v)

/-- The second half of `parseOne`: the flag `name` is looked up among the
registered flags and its `Set` is called, with the text after `=` when there
is one, else with `true` for a boolean flag and with the next argument for a
string flag. -/
def setFlag (c : Config) (name : String) (value : Option String) (rest : List String) : Step :=
  match formal name with
  | none =>
    if name = "help" ∨ name = "h" then .fail .help
    else .fail (.notDefined name)
  | some (.bool v) =>
    match value with
    | some val =>
      match ParseBool val with
      | none => .fail (.invalidBool val name)
      | some b => .seen (c.setBool v b) rest (.bool v b)
    | none => .seen (c.setBool v true) rest (.bool v true)
  | some (.str v) =>
    match value with
    | some val => .seen (c.setStr v val) rest (.str v val)
    | none =>
      match rest with
      | [] => .fail (.needsArgument name)
      | val :: rest2 => .seen (c.setStr v val) rest2 (.str v val)

/-- Go standard library, `(*FlagSet).parseOne`, for the flag set of `main.go`:
an argument shorter than two bytes or not starting with `-` ends the flags, as
does `--`; one or two leading minus signs are dropped; a name that is empty or
starts with `-` or `=` is bad syntax; the name ends at the first `=`. -/
def parseOne (c : Config) (args : List String) : Step :=
  match args with
  | [] => .stop []
  | s :: rest =>
    match s.data with
    | [] => .stop args
    | [_] => .stop args
    | c0 :: c1 :: tl =>
      if c0 ≠ '-' then .stop args
      else if c1 = '-' ∧ tl = [] then .stop rest
      else
        match (if c1 = '-' then tl else c1 :: tl) with
        | [] => .fail (.badSyntax s)
        | n0 :: ntl =>
          if n0 = '-' ∨ n0 = '=' then .fail (.badSyntax s)
          else
            match splitEq ntl with
            | some (n, v) => setFlag c (String.mk (n0 :: n)) (some (String.mk v)) rest
            | none => setFlag c (String.mk (n0 :: ntl)) none rest

/-- The state of the variables after a successful `flag.Parse`, the arguments
left over (`flag.Args()`), and the `Value.Set` calls made, oldest first. -/
structure Parsed where
  cfg : Config
  args : List String
  sets : List Assign
  deriving DecidableEq, Repr

/-- The loop of `(*FlagSet).Parse`: `parseOne` is repeated while it reports a
flag; the first argument bounds the number of rounds. -/
def parseLoop : Nat → Config → List String → List Assign → Except FlagError Parsed
  | 0, c, args, log => .ok { cfg := c, args := args, sets := log }
  | n + 1, c, args, log =>
    match parseOne c args with
    | .seen c2 args2 a => parseLoop n c2 args2 (log ++ [a])
    | .stop args2 => .ok { cfg := c, args := args2, sets := log }
    | .fail e => .error e

/-- Go standard library, `flag.Parse()` up to its error handling: every round
that reports a flag consumes an argument, so one round more than there are
arguments ends the loop. -/
def Parse (c : Config) (args : List String) : Except FlagError Parsed :=
  parseLoop (args.length + 1) c args []

/-- The latest value stored into a boolean variable by a list of `Set` calls. -/
def lastBool (v : BoolVar) : List Assign → Option Bool
  | [] => none
  | a :: rest =>
    match lastBool v rest with
    | some b => some b
    | none =>
      match a with
      | .bool w b => if w = v then some b else none
      | .str _ _ => none

/-- The latest value stored into a string variable by a list of `Set` calls. -/
def lastStr (v : StrVar) : List Assign → Option String
  | [] => none
  | a :: rest =>
    match lastStr v rest with
    | some s => some s
    | none =>
      match a with
      | .str w s => if w = v then some s else none
      | .bool _ _ => none

/-! ## The greeting handler -/

/-- An incoming `*http.Request`, as far as a handler can tell requests apart. -/
structure Request where
  method : String
  path : String
  headers : List (String × String)
  body : String
  deriving DecidableEq, Repr

/-- Go standard library, `http.Header`: a map from canonical header names to
their values, kept as an association list. -/
abbrev Header := List (String × List String)

/-- Go standard library, `validHeaderFieldByte` of `net/textproto`: the token
characters of a header name (ASCII letters, digits and fifteen punctuation
marks). -/
def validHeaderFieldByte (ch : Char) : Bool :=
  ch.isAlphanum || "!#$%&'*+-.^_`|~".data.contains ch

/-- The canonical spelling of a header name made of token characters: upper
case for the first letter and for a letter after `-`, lower case elsewhere. -/
def canonicalBytes : Bool → List Char → List Char
  | _, [] => []
  | upper, ch :: rest =>
    let out :=
      if upper && ch.isLower then ch.toUpper
      else if !upper && ch.isUpper then ch.toLower
      else ch
    out :: canonicalBytes (out == '-') rest

/-- Go standard library, `textproto.CanonicalMIMEHeaderKey`: a name with a
character that is no token character is returned unchanged. -/
def CanonicalMIMEHeaderKey (s : String) : String :=
  if s.data.all validHeaderFieldByte then String.mk (canonicalBytes true s.data) else s

/-- Go standard library, `Header.Set(key, value)`: the entry of the canonical
key is replaced by the single value. -/
def Header.Set (h : Header) (key value : String) : Header :=
  (h.filter (fun kv => kv.1 ≠ CanonicalMIMEHeaderKey key))
    ++ [(CanonicalMIMEHeaderKey key, [value])]

/-- Go standard library, `Header.Get(key)`: the first value stored under the
canonical key, or the empty string. -/
def Header.Get (h : Header) (key : String) : String :=
  match h.find? (fun kv => kv.1 = CanonicalMIMEHeaderKey key) with
  | some (_, v :: _) => v
  | _ => ""

/-- Go standard library, the `*http.response` behind the `http.ResponseWriter`
a handler receives: the request it answers (`req`), the header map the handler
edits (`handlerHeader`), whether the status line has been written and with
which code, the clone of the header map taken at that moment (`cw.header`), and
the body bytes passed on to the connection.  When it writes the response the
server sends headers of its own (`Date`, and `Content-Length` or
`Transfer-Encoding`) next to those of the clone; these are not part of this
record. -/
structure ResponseWriter where
  req : Request
  handlerHeader : Header
  wroteHeader : Bool
  status : Nat
  cwHeader : Header
  body : String
  deriving DecidableEq, Repr

/-- The writer the server hands to the handler together with the request. -/
def ResponseWriter.fresh (req : Request) : ResponseWriter :=
  { req := req, handlerHeader := [], wroteHeader := false, status := 0, cwHeader := [],
    body := "" }

/-- The call `res.Header().Set(key, value)`. -/
def ResponseWriter.headerSet (w : ResponseWriter) (key value : String) : ResponseWriter :=
  { w with handlerHeader := w.handlerHeader.Set key value }

/-- Go standard library, `bodyAllowedForStatus`: no body with 1xx, 204, 304. -/
def bodyAllowedForStatus (status : Nat) : Bool :=
  if 100 ≤ status ∧ status ≤ 199 then false
  else if status = 204 then false
  else if status = 304 then false
  else true

/-- Go standard library, `(*response).WriteHeader`: the first call fixes the
status code and clones the header map; later calls change nothing. -/
def ResponseWriter.WriteHeader (w : ResponseWriter) (code : Nat) : ResponseWriter :=
  if w.wroteHeader then w
  else { w with wroteHeader := true, status := code, cwHeader := w.handlerHeader }

/-- Go standard library, `(*response).Write`: the first write sends status 200;
empty data and a status without a body write nothing; for a request of method
`HEAD` the connection swallows the bytes (`chunkWriter.Write`); otherwise they
are appended to the body.  The handler of `main.go` declares no
`Content-Length`, so the check against a declared length is left out. -/
def ResponseWriter.Write (w : ResponseWriter) (data : String) : ResponseWriter :=
  let w1 := if w.wroteHeader then w else w.WriteHeader 200
  if data = "" then w1
  else if !bodyAllowedForStatus w1.status then w1
  else if w1.req.method = "HEAD" then w1
  else { w1 with body := w1.body ++ data }

/-- The function `handle` (lines 95-98); `fmt.Fprintf(res, "%v World!\n", *Prefix)`
is one `Write` of the prefix followed by the literal text. -/
def handle (c : Config) (res : ResponseWriter) (_req : Request) : ResponseWriter :=
  (res.headerSet "content-type" "text/plain").Write (c.Prefix ++ " World!\n")

/-! ## Process output and `main` -/

/-- What the process does that is visible from outside, in order. -/
inductive Event
  /-- Bytes written to `os.Stdout`. -/
  | stdout (s : String)
  /-- Bytes written to `os.Stderr` by `main.go`. -/
  | stderr (s : String)
  /-- The flag package prints the error and a newline on `os.Stderr` (`failf`). -/
  | flagReport (e : FlagError)
  /-- The call `flag.PrintDefaults()`, which writes to `os.Stderr`. -/
  | printDefaults
  /-- The Go runtime reports an unrecovered panic on `os.Stderr`. -/
  | panicReport (p : Panic)
  /-- The call `s.ListenAndServe()` on a server with this `Addr`. -/
  | listenAndServe (addr : String)
  deriving DecidableEq, Repr

/-- How the process ends: `main` returns, `os.Exit(code)`, or an unrecovered
panic. -/
inductive Termination
  | returned
  | osExit (code : Nat)
  | panicked
  deriving DecidableEq, Repr

/-- The exit status of the process: 0 when `main` returns, the argument of
`os.Exit`, and 2 for an unrecovered panic (Go runtime). -/
def Termination.status : Termination → Nat
  | .returned => 0
  | .osExit code => code
  | .panicked => 2

/-- A finished run of the process. -/
structure Outcome where
  trace : List Event
  term : Termination
  deriving DecidableEq, Repr

/-- Everything written to standard output, concatenated. -/
def stdoutOf : List Event → String
  | [] => ""
  | .stdout s :: rest => s ++ stdoutOf rest
  | _ :: rest => stdoutOf rest

/-- Whether an event is a write to standard output. -/
def Event.isStdout : Event → Bool
  | .stdout _ => true
  | _ => false

/-- Whether an event is the start of the listener. -/
def Event.isListen : Event → Bool
  | .listenAndServe _ => true
  | _ => false

/-- The text of `var usage` (lines 12-15). -/
def usage : String :=
  "greeter\n\nExample service which greets a client using a configurable prefix.\n"

/-- The closure stored in `flag.Usage` (lines 33-36). -/
def flagUsage : List Event :=
  [.stderr usage, .printDefaults]

/-- The verb `%v` of package `fmt` applied to a `bool`. -/
def fmtBool (b : Bool) : String :=
  if b then "true" else "false"

/-- The function `printConfig` (lines 71-75): three `fmt.Printf` calls, each a
write to standard output. -/
def printConfig (c : Config) : List Event :=
  [.stdout ("VERBOSE=" ++ fmtBool c.Verbose ++ "\n"),
   .stdout ("LISTEN=" ++ c.Listen ++ "\n"),
   .stdout ("PREFIX=" ++ c.Prefix ++ "\n")]

/-- The function `verboseVersion` (lines 77-79). -/
def verboseVersion (b : Build) : String :=
  b.brch ++ "-" ++ b.date ++ "-" ++ b.vers ++ "-" ++ b.hash

/-- The `http.Server` literal built by `run` (lines 82-88); durations are in
nanoseconds, as `time.Duration` is. -/
structure Server where
  Addr : String
  Handler : ResponseWriter → Request → ResponseWriter
  ReadTimeout : Nat
  WriteTimeout : Nat
  MaxHeaderBytes : Nat

/-- The function `run` (lines 81-93).  `ListenAndServe` stands for the library
call: the error it returns, or `none`. -/
def run (c : Config) (ListenAndServe : Server → Option String) : List Event × Option String :=
  let s : Server :=
    { Addr := c.Listen
      Handler := handle c
      ReadTimeout := 5 * 1000000000
      WriteTimeout := 5 * 1000000000
      MaxHeaderBytes := 1 <<< 20 }
  ((if c.Verbose then [Event.stderr ("greeter listening at " ++ c.Listen ++ "\n")] else [])
      ++ [Event.listenAndServe s.Addr],
    ListenAndServe s)

/-- The part of `main` after `flag.Parse()` (lines 44-61). -/
def mainAfterParse (b : Build) (c : Config) (ListenAndServe : Server → Option String) : Outcome :=
  let dump := if c.Verbose then printConfig c else []
  if c.Version then
    { trace := dump ++ [.stdout (verboseVersion b ++ "\n")], term := .returned }
  else
    match run c ListenAndServe with
    | (evs, some err) =>
      { trace := dump ++ evs ++ [.stderr (err ++ "\n")], term := .osExit 1 }
    | (evs, none) => { trace := dump ++ evs, term := .returned }

/-- Go standard library, the error handling of `flag.Parse()` for the default
flag set (`ExitOnError`): `-h` / `-help` calls the usage function and exits
with 0, any other error is printed, followed by the usage, and exits with 2. -/
def flagExit : FlagError → Outcome
  | .help => { trace := flagUsage, term := .osExit 0 }
  | e => { trace := .flagReport e :: flagUsage, term := .osExit 2 }

/-- The function `main` (lines 30-62), run with the build metadata, the
environment, the command line `os.Args[1:]` and the behaviour of the listener. -/
def main (b : Build) (env : Env) (args : List String)
    (ListenAndServe : Server → Option String) : Outcome :=
  match parseEnv env defaults with
  | .error p => { trace := [.panicReport p], term := .panicked }
  | .ok c0 =>
    match Parse c0 args with
    | .error e => flagExit e
    | .ok r => mainAfterParse b r.cfg ListenAndServe

/-- The effective configuration: the variables after `parseEnv()` and
`flag.Parse()`, when both complete. -/
def effective (env : Env) (args : List String) : Option Parsed :=
  match parseEnv env defaults with
  | .error _ => none
  | .ok c0 =>
    match Parse c0 args with
    | .error _ => none
    | .ok r => some r

/-- An environment given as a list of `NAME=value` pairs; the first entry of a
name is the one `os.LookupEnv` reports. -/
def envOf (vars : List (String × String)) : Env :=
  fun key => (vars.find? (fun kv => kv.1 = key)).map (fun kv => kv.2)

/-! ## Command lines written flag by flag

The forms in which package `flag` documents that a flag is written: `-flag`,
`--flag`, `-flag=x`, `--flag=x`, and for a non-boolean flag `-flag x`. -/

/-- The name under which a boolean variable's flag is registered (lines 18, 21). -/
def BoolVar.flagName : BoolVar → String
  | .Verbose => "verbose"
  | .Version => "version"

/-- The name under which a string variable's flag is registered (lines 19, 20). -/
def StrVar.flagName : StrVar → String
  | .Prefix => "prefix"
  | .Listen => "listen"

/-- The texts package `flag` documents for a boolean flag's value. -/
def boolSpellings : Bool → List String
  | true => ["1", "t", "T", "true", "TRUE", "True"]
  | false => ["0", "f", "F", "false", "FALSE", "False"]

/-- One flag as written on a command line; `two` tells whether it is written
with two minus signs. -/
inductive FlagArg
  /-- A boolean flag alone: `-verbose`. -/
  | boolBare (two : Bool) (v : BoolVar)
  /-- A boolean flag with its value `b` spelled as `text`: `-verbose=text`. -/
  | boolEq (two : Bool) (v : BoolVar) (b : Bool) (text : String)
  /-- A string flag with its value in the same argument: `-prefix=val`. -/
  | strEq (two : Bool) (v : StrVar) (val : String)
  /-- A string flag with its value in the next argument: `-prefix val`. -/
  | strNext (two : Bool) (v : StrVar) (val : String)
  deriving DecidableEq, Repr

/-- One or two minus signs. -/
def dashes (two : Bool) : String :=
  if two then "--" else "-"

/-- The arguments a flag occupies on the command line. -/
def FlagArg.render : FlagArg → List String
  | .boolBare two v => [dashes two ++ v.flagName]
  | .boolEq two v _ text => [dashes two ++ v.flagName ++ "=" ++ text]
  | .strEq two v val => [dashes two ++ v.flagName ++ "=" ++ val]
  | .strNext two v val => [dashes two ++ v.flagName, val]

/-- A boolean flag's text must be a spelling of its value. -/
def FlagArg.WellFormed : FlagArg → Prop
  | .boolEq _ _ b text => text ∈ boolSpellings b
  | _ => True

instance (fa : FlagArg) : Decidable fa.WellFormed :=
  match fa with
  | .boolBare _ _ => isTrue trivial
  | .boolEq _ _ b text => inferInstanceAs (Decidable (text ∈ boolSpellings b))
  | .strEq _ _ _ => isTrue trivial
  | .strNext _ _ _ => isTrue trivial

/-- The variable a flag is for and the value it gives. -/
def FlagArg.assign : FlagArg → Assign
  | .boolBare _ v => .bool v true
  | .boolEq _ v b _ => .bool v b
  | .strEq _ v val => .str v val
  | .strNext _ v val => .str v val

/-- The command line made of the given flags, in order. -/
def renderAll : List FlagArg → List String
  | [] => []
  | fa :: rest => fa.render ++ renderAll rest

/-- What may follow the flags of a command line, with the arguments left to the
program: nothing; `--` and then anything; or an argument that is no flag (it
is shorter than two characters or does not start with `-`) and then anything. -/
def EndsFlags (tail left : List String) : Prop :=
  (tail = [] ∧ left = []) ∨
  (∃ rest, tail = "--" :: rest ∧ left = rest) ∨
  (∃ s rest, tail = s :: rest ∧ left = tail ∧
    (s.data.length < 2 ∨ s.data.head? ≠ some '-'))

/-! ## Lemmas on the flag loop -/

/-- The variables after a list of `Set` calls. -/
def applySets (c : Config) (log : List Assign) : Config :=
  log.foldl Config.assign c

/-- Two results of `parseOne`, from the variables `c` and `d`, that differ only
in the variables the reported `Set` call was applied to. -/
def Step.sameAs (c d : Config) : Step → Step → Prop
  | .seen c2 x a, .seen d2 y b => a = b ∧ x = y ∧ c2 = c.assign a ∧ d2 = d.assign a
  | .stop x, .stop y => x = y
  | .fail e, .fail f => e = f
  | _, _ => False

/-- The lookup-and-set half of `parseOne` only writes the variables. -/
theorem setFlag_config (c d : Config) (name : String) (value : Option String)
    (rest : List String) :
    Step.sameAs c d (setFlag c name value rest) (setFlag d name value rest) := by
  unfold setFlag
  repeat' split
  all_goals simp_all [Step.sameAs, Config.assign]

/-- What `parseOne` reports does not depend on the variables' current values:
they are only written, by the one `Set` call reported. -/
theorem parseOne_config (c d : Config) (args : List String) :
    Step.sameAs c d (parseOne c args) (parseOne d args) := by
  unfold parseOne
  repeat' split
  all_goals first
    | exact setFlag_config _ _ _ _ _
    | simp_all [Step.sameAs]

/-- The lookup-and-set half of `parseOne` does not add arguments. -/
theorem setFlag_length (c c2 : Config) (name : String) (value : Option String)
    (rest args2 : List String) (a : Assign)
    (h : setFlag c name value rest = .seen c2 args2 a) : args2.length ≤ rest.length := by
  unfold setFlag at h
  repeat' split at h
  all_goals simp_all

/-- A round of `parseOne` that reports a flag leaves fewer arguments. -/
theorem parseOne_length (c c2 : Config) (args args2 : List String) (a : Assign)
    (h : parseOne c args = .seen c2 args2 a) : args2.length < args.length := by
  unfold parseOne at h
  repeat' split at h
  all_goals first
    | exact Nat.lt_succ_of_le (setFlag_length _ _ _ _ _ _ _ h)
    | simp_all

/-- The loop of `flag.Parse` ends within one round more than there are
arguments: any two such bounds give the same result. -/
theorem parseLoop_fuel (n m : Nat) (c : Config) (args : List String) (log : List Assign)
    (hn : args.length < n) (hm : args.length < m) :
    parseLoop n c args log = parseLoop m c args log := by
  induction n generalizing m c args log with
  | zero => omega
  | succ n ih =>
    cases m with
    | zero => omega
    | succ m =>
      simp only [parseLoop]
      cases h : parseOne c args with
      | seen c2 args2 a =>
        have hlen := parseOne_length _ _ _ _ _ h
        exact ih m c2 args2 (log ++ [a]) (by omega) (by omega)
      | stop x => rfl
      | fail e => rfl

/-- The variables at the end of the loop are the starting ones with the
reported `Set` calls applied in order. -/
theorem parseLoop_sets (n : Nat) (c : Config) (args : List String) (log : List Assign)
    (r : Parsed) (h : parseLoop n c args log = .ok r) :
    ∃ more, r.sets = log ++ more ∧ r.cfg = applySets c more := by
  induction n generalizing c args log with
  | zero =>
    simp only [parseLoop, Except.ok.injEq] at h
    subst h
    exact ⟨[], by simp, rfl⟩
  | succ n ih =>
    simp only [parseLoop] at h
    cases hp : parseOne c args with
    | seen c2 args2 a =>
      rw [hp] at h
      obtain ⟨more, h1, h2⟩ := ih c2 args2 (log ++ [a]) h
      have hs := parseOne_config c c args
      rw [hp] at hs
      simp only [Step.sameAs] at hs
      refine ⟨a :: more, by simp [h1], ?_⟩
      rw [h2, hs.2.2.1]
      rfl
    | stop x =>
      rw [hp] at h
      simp only [Except.ok.injEq] at h
      subst h
      exact ⟨[], by simp, rfl⟩
    | fail e =>
      rw [hp] at h
      cases h

/-- Whether the loop succeeds, which `Set` calls it makes and which arguments
it leaves do not depend on the variables it starts from. -/
theorem parseLoop_config (n : Nat) (c d : Config) (args : List String) (log : List Assign)
    (r : Parsed) (h : parseLoop n c args log = .ok r) :
    ∃ q, parseLoop n d args log = .ok q ∧ q.sets = r.sets ∧ q.args = r.args := by
  induction n generalizing c d args log with
  | zero =>
    simp only [parseLoop, Except.ok.injEq] at h
    subst h
    exact ⟨_, rfl, rfl, rfl⟩
  | succ n ih =>
    simp only [parseLoop] at h ⊢
    have hs := parseOne_config c d args
    cases hp : parseOne c args with
    | seen c2 args2 a =>
      rw [hp] at h hs
      cases hq : parseOne d args with
      | seen d2 args3 b =>
        rw [hq] at hs
        simp only [Step.sameAs] at hs
        obtain ⟨hab, hx, -, -⟩ := hs
        subst hab hx
        exact ih c2 d2 args2 (log ++ [a]) h
      | stop y => rw [hq] at hs; simp [Step.sameAs] at hs
      | fail f => rw [hq] at hs; simp [Step.sameAs] at hs
    | stop x =>
      rw [hp] at h hs
      simp only [Except.ok.injEq] at h
      subst h
      cases hq : parseOne d args with
      | seen d2 args3 b => rw [hq] at hs; simp [Step.sameAs] at hs
      | stop y =>
        rw [hq] at hs
        simp only [Step.sameAs] at hs
        subst hs
        exact ⟨_, rfl, rfl, rfl⟩
      | fail f => rw [hq] at hs; simp [Step.sameAs] at hs
    | fail e =>
      rw [hp] at h
      cases h

/-- After `flag.Parse` the variables are the starting ones with the `Set` calls
applied in order. -/
theorem Parse_cfg (c : Config) (args : List String) (r : Parsed)
    (h : Parse c args = .ok r) : r.cfg = applySets c r.sets := by
  obtain ⟨more, h1, h2⟩ := parseLoop_sets _ c args [] r h
  simp only [List.nil_append] at h1
  rw [h2, h1]

/-- The `Set` calls of `flag.Parse` depend on the command line only. -/
theorem Parse_config (c d : Config) (args : List String) (r : Parsed)
    (h : Parse c args = .ok r) :
    ∃ q, Parse d args = .ok q ∧ q.sets = r.sets ∧ q.args = r.args :=
  parseLoop_config _ c d args [] r h

/-- A boolean variable after a list of `Set` calls: the latest value stored into
it, else its value before. -/
theorem applySets_getBool (v : BoolVar) (log : List Assign) (c : Config) :
    (applySets c log).getBool v = (lastBool v log).getD (c.getBool v) := by
  induction log generalizing c with
  | nil => rfl
  | cons a rest ih =>
    have h : applySets c (a :: rest) = applySets (c.assign a) rest := rfl
    rw [h, ih]
    simp only [lastBool]
    cases lastBool v rest with
    | some b => rfl
    | none =>
      cases a with
      | bool w b =>
        by_cases hw : w = v
        · subst hw; cases w <;> simp [Config.assign, Config.setBool, Config.getBool]
        · cases w <;> cases v <;> simp_all [Config.assign, Config.setBool, Config.getBool]
      | str w s => cases w <;> cases v <;> simp [Config.assign, Config.setStr, Config.getBool]

/-- A string variable after a list of `Set` calls: the latest value stored into
it, else its value before. -/
theorem applySets_getStr (v : StrVar) (log : List Assign) (c : Config) :
    (applySets c log).getStr v = (lastStr v log).getD (c.getStr v) := by
  induction log generalizing c with
  | nil => rfl
  | cons a rest ih =>
    have h : applySets c (a :: rest) = applySets (c.assign a) rest := rfl
    rw [h, ih]
    simp only [lastStr]
    cases lastStr v rest with
    | some b => rfl
    | none =>
      cases a with
      | str w b =>
        by_cases hw : w = v
        · subst hw; cases w <;> simp [Config.assign, Config.setStr, Config.getStr]
        · cases w <;> cases v <;> simp_all [Config.assign, Config.setStr, Config.getStr]
      | bool w s => cases w <;> cases v <;> simp [Config.assign, Config.setBool, Config.getStr]

/-- No store into a boolean variable, no latest value. -/
theorem lastBool_none (v : BoolVar) (log : List Assign)
    (h : ∀ b, Assign.bool v b ∉ log) : lastBool v log = none := by
  induction log with
  | nil => rfl
  | cons a rest ih =>
    have hr : ∀ b, Assign.bool v b ∉ rest := fun b hb => h b (List.mem_cons_of_mem _ hb)
    simp only [lastBool, ih hr]
    cases a with
    | bool w b =>
      by_cases hw : w = v
      · subst hw; exact absurd (List.mem_cons_self _ _) (h b)
      · simp [hw]
    | str w s => rfl

/-- No store into a string variable, no latest value. -/
theorem lastStr_none (v : StrVar) (log : List Assign)
    (h : ∀ s, Assign.str v s ∉ log) : lastStr v log = none := by
  induction log with
  | nil => rfl
  | cons a rest ih =>
    have hr : ∀ s, Assign.str v s ∉ rest := fun s hs => h s (List.mem_cons_of_mem _ hs)
    simp only [lastStr, ih hr]
    cases a with
    | str w s =>
      by_cases hw : w = v
      · subst hw; exact absurd (List.mem_cons_self _ _) (h s)
      · simp [hw]
    | bool w b => rfl

/-- The latest value stored into a boolean variable is that of the store no
later store follows. -/
theorem lastBool_split (v : BoolVar) (b : Bool) (pre post : List Assign)
    (h : ∀ b2, Assign.bool v b2 ∉ post) :
    lastBool v (pre ++ Assign.bool v b :: post) = some b := by
  induction pre with
  | nil => simp [lastBool, lastBool_none v post h]
  | cons a rest ih => simp [lastBool, ih]

/-- The latest value stored into a string variable is that of the store no
later store follows. -/
theorem lastStr_split (v : StrVar) (s : String) (pre post : List Assign)
    (h : ∀ s2, Assign.str v s2 ∉ post) :
    lastStr v (pre ++ Assign.str v s :: post) = some s := by
  induction pre with
  | nil => simp [lastStr, lastStr_none v post h]
  | cons a rest ih => simp [lastStr, ih]

/-- The flag `-prefix=v` stores `v`, whatever text `v` is. -/
theorem parseOne_prefix_eq (c : Config) (v : String) (rest : List String) :
    parseOne c (("-prefix=" ++ v) :: rest)
      = .seen (c.setStr .Prefix v) rest (.str .Prefix v) := by
  simp [parseOne, splitEq, setFlag, formal]

/-- The flag `-listen=v` stores `v`, whatever text `v` is. -/
theorem parseOne_listen_eq (c : Config) (v : String) (rest : List String) :
    parseOne c (("-listen=" ++ v) :: rest)
      = .seen (c.setStr .Listen v) rest (.str .Listen v) := by
  simp [parseOne, splitEq, setFlag, formal]

/-! ## Lemmas on `parseEnv` and `main` -/

/-- The function `parseBool` panics exactly when the variable is set to a text
that `strconv.ParseBool` rejects. -/
theorem parseBool_error_iff (env : Env) (key : String) (v : BoolVar) (c : Config) :
    (∃ p, parseBool env key v c = .error p) ↔ ∃ s, env key = some s ∧ ParseBool s = none := by
  unfold parseBool
  cases h : env key with
  | none => simp
  | some val =>
    cases hb : ParseBool val with
    | none => simp [hb]
    | some b => simp [hb]

/-- The store made by a `parseBool` that did not panic. -/
theorem parseBool_ok (env : Env) (key : String) (v : BoolVar) (c c2 : Config)
    (h : parseBool env key v c = .ok c2) :
    c2 = match (env key).bind ParseBool with
      | some b => c.setBool v b
      | none => c := by
  unfold parseBool at h
  cases he : env key with
  | none => simp only [he, Except.ok.injEq] at h; simp [h]
  | some val =>
    simp only [he] at h
    cases hb : ParseBool val with
    | none => simp [hb] at h
    | some b => simp only [hb, Except.ok.injEq] at h; simp [hb, h]

/-- The variables after a `parseEnv` that did not panic. -/
theorem parseEnv_ok (env : Env) (c c2 : Config) (h : parseEnv env c = .ok c2) :
    c2.Version = ((env "VERSION").bind ParseBool).getD c.Version ∧
    c2.Verbose = ((env "VERBOSE").bind ParseBool).getD c.Verbose ∧
    c2.Prefix = (env "PREFIX").getD c.Prefix ∧
    c2.Listen = (env "LISTEN").getD c.Listen := by
  unfold parseEnv at h
  cases h1 : parseBool env "VERSION" .Version c with
  | error p => simp [h1] at h
  | ok c1 =>
    simp only [h1] at h
    cases h2 : parseBool env "VERBOSE" .Verbose c1 with
    | error p => simp [h2] at h
    | ok c3 =>
      simp only [h2, Except.ok.injEq] at h
      have e1 := parseBool_ok _ _ _ _ _ h1
      have e2 := parseBool_ok _ _ _ _ _ h2
      subst h e2 e1
      unfold parseString
      cases (env "VERSION").bind ParseBool <;> cases (env "VERBOSE").bind ParseBool <;>
        cases env "PREFIX" <;> cases env "LISTEN" <;>
        simp [Config.setBool, Config.setStr]

/-- The function `parseEnv` panics exactly when VERSION or VERBOSE is set to a
text that `strconv.ParseBool` rejects. -/
theorem parseEnv_error_iff (env : Env) (c : Config) :
    (∃ p, parseEnv env c = .error p) ↔
      ((∃ s, env "VERSION" = some s ∧ ParseBool s = none) ∨
       (∃ s, env "VERBOSE" = some s ∧ ParseBool s = none)) := by
  rw [← parseBool_error_iff env "VERSION" .Version c]
  unfold parseEnv
  cases h1 : parseBool env "VERSION" .Version c with
  | error p => simp
  | ok c1 =>
    rw [← parseBool_error_iff env "VERBOSE" .Verbose c1]
    cases h2 : parseBool env "VERBOSE" .Verbose c1 with
    | error p => simp [h2]
    | ok c3 => simp [h2]

/-- When both layers complete, `main` continues with the parsed variables. -/
theorem main_of_effective (b : Build) (env : Env) (args : List String)
    (L : Server → Option String) (r : Parsed) (h : effective env args = some r) :
    main b env args L = mainAfterParse b r.cfg L := by
  unfold effective at h
  unfold main
  cases he : parseEnv env defaults with
  | error p => rw [he] at h; cases h
  | ok c0 =>
    rw [he] at h
    simp only at h ⊢
    cases hp : Parse c0 args with
    | error e => rw [hp] at h; cases h
    | ok q =>
      rw [hp] at h
      simp only [Option.some.injEq] at h
      subst h
      rfl

/-- When a layer fails, `main` does not end with status 1. -/
theorem main_of_not_effective (b : Build) (env : Env) (args : List String)
    (L : Server → Option String) (h : effective env args = none) :
    (main b env args L).term.status ≠ 1 := by
  unfold effective at h
  unfold main
  cases he : parseEnv env defaults with
  | error p => simp [Termination.status]
  | ok c0 =>
    rw [he] at h
    simp only at h ⊢
    cases hp : Parse c0 args with
    | error e => cases e <;> simp [flagExit, Termination.status]
    | ok q => rw [hp] at h; cases h

/-- The effective configuration exists when both layers complete. -/
theorem effective_some_iff (env : Env) (args : List String) (r : Parsed) :
    effective env args = some r ↔
      ∃ c0, parseEnv env defaults = .ok c0 ∧ Parse c0 args = .ok r := by
  unfold effective
  cases he : parseEnv env defaults with
  | error p => simp
  | ok c0 =>
    cases hp : Parse c0 args with
    | error e => simp [hp]
    | ok q => simp [hp]

/-- An environment whose boolean variables parse lets `parseEnv` complete. -/
theorem parseEnv_ok_of_valid (env : Env) (c : Config)
    (hVersion : ∀ s, env "VERSION" = some s → ParseBool s ≠ none)
    (hVerbose : ∀ s, env "VERBOSE" = some s → ParseBool s ≠ none) :
    ∃ c0, parseEnv env c = .ok c0 := by
  cases h : parseEnv env c with
  | ok c0 => exact ⟨c0, rfl⟩
  | error p =>
    rcases (parseEnv_error_iff env c).1 ⟨p, h⟩ with ⟨s, h1, h2⟩ | ⟨s, h1, h2⟩
    · exact absurd h2 (hVersion s h1)
    · exact absurd h2 (hVerbose s h1)

/-- The effective value of a boolean variable is the latest one a flag stored. -/
theorem effective_bool_flag (env : Env) (args : List String) (r : Parsed)
    (h : effective env args = some r) (v : BoolVar) (pre post : List Assign) (b : Bool)
    (hsets : r.sets = pre ++ Assign.bool v b :: post)
    (hlast : ∀ b2, Assign.bool v b2 ∉ post) : r.cfg.getBool v = b := by
  obtain ⟨c0, -, hp⟩ := (effective_some_iff env args r).1 h
  rw [Parse_cfg c0 args r hp, applySets_getBool, hsets, lastBool_split v b pre post hlast]
  rfl

/-- The effective value of a string variable is the latest one a flag stored. -/
theorem effective_str_flag (env : Env) (args : List String) (r : Parsed)
    (h : effective env args = some r) (v : StrVar) (pre post : List Assign) (s : String)
    (hsets : r.sets = pre ++ Assign.str v s :: post)
    (hlast : ∀ s2, Assign.str v s2 ∉ post) : r.cfg.getStr v = s := by
  obtain ⟨c0, -, hp⟩ := (effective_some_iff env args r).1 h
  rw [Parse_cfg c0 args r hp, applySets_getStr, hsets, lastStr_split v s pre post hlast]
  rfl

/-- Two environments give the same `Set` calls for the same command line. -/
theorem effective_sets (env env2 : Env) (args : List String) (r r2 : Parsed)
    (h : effective env args = some r) (h2 : effective env2 args = some r2) :
    r2.sets = r.sets ∧ r2.args = r.args := by
  obtain ⟨c0, -, hp⟩ := (effective_some_iff env args r).1 h
  obtain ⟨d0, -, hq⟩ := (effective_some_iff env2 args r2).1 h2
  obtain ⟨q, hq2, hs, ha⟩ := Parse_config c0 d0 args r hp
  rw [hq] at hq2
  simp only [Except.ok.injEq] at hq2
  subst hq2
  exact ⟨hs, ha⟩

/-- Without a flag for it, a variable keeps the value `parseEnv` left. -/
theorem effective_no_flag (env : Env) (args : List String) (r : Parsed)
    (h : effective env args = some r) :
    ∃ c0, parseEnv env defaults = .ok c0 ∧
      (∀ v, (∀ b, Assign.bool v b ∉ r.sets) → r.cfg.getBool v = c0.getBool v) ∧
      (∀ v, (∀ s, Assign.str v s ∉ r.sets) → r.cfg.getStr v = c0.getStr v) := by
  obtain ⟨c0, he, hp⟩ := (effective_some_iff env args r).1 h
  refine ⟨c0, he, ?_, ?_⟩
  · intro v hv
    rw [Parse_cfg c0 args r hp, applySets_getBool, lastBool_none v _ hv]
    rfl
  · intro v hv
    rw [Parse_cfg c0 args r hp, applySets_getStr, lastStr_none v _ hv]
    rfl

/-- The listener is started once, at the effective address, after the startup
line when there is one. -/
theorem run_events (c : Config) (L : Server → Option String) :
    (run c L).1 =
      (if c.Verbose then [Event.stderr ("greeter listening at " ++ c.Listen ++ "\n")] else [])
        ++ [Event.listenAndServe c.Listen] := rfl

/-- A command line of one argument that is a flag. -/
theorem Parse_single (c c2 : Config) (x : String) (a : Assign)
    (h : parseOne c [x] = .seen c2 [] a) :
    Parse c [x] = .ok { cfg := c2, args := [], sets := [a] } := by
  simp only [Parse, List.length_singleton, parseLoop, h]
  rfl

/-- The version path of `main`: the dump when verbose, then the version line
on standard output, and `main` returns without calling `run`. -/
theorem version_path (b : Build) (env : Env) (args : List String)
    (L : Server → Option String) (r : Parsed) (h : effective env args = some r)
    (hv : r.cfg.Version = true) :
    main b env args L =
      { trace := (if r.cfg.Verbose then printConfig r.cfg else [])
          ++ [.stdout (verboseVersion b ++ "\n")],
        term := .returned } := by
  rw [main_of_effective b env args L r h]
  simp [mainAfterParse, hv]

/-- The serving path of `main` when `run` returns no error. -/
theorem serve_path (b : Build) (env : Env) (args : List String)
    (L : Server → Option String) (r : Parsed) (h : effective env args = some r)
    (hv : r.cfg.Version = false) (hr : (run r.cfg L).2 = none) :
    main b env args L =
      { trace := (if r.cfg.Verbose then printConfig r.cfg else []) ++ (run r.cfg L).1,
        term := .returned } := by
  rw [main_of_effective b env args L r h]
  unfold mainAfterParse
  cases hrun : run r.cfg L with
  | mk evs err =>
    rw [hrun] at hr
    simp only at hr
    subst hr
    simp [hv]

/-- Every documented boolean spelling parses to its value. -/
theorem ParseBool_spelling (b : Bool) (text : String) (h : text ∈ boolSpellings b) :
    ParseBool text = some b := by
  cases b <;>
    · simp only [boolSpellings, List.mem_cons, List.mem_singleton, List.not_mem_nil,
        or_false] at h
      rcases h with h | h | h | h | h | h <;> subst h <;> decide

/-- A well-formed flag at the head of the arguments is reported by `parseOne`
with the store it stands for, and exactly its arguments are consumed. -/
theorem parseOne_render (c : Config) (fa : FlagArg) (rest : List String)
    (h : fa.WellFormed) :
    parseOne c (fa.render ++ rest) = .seen (c.assign fa.assign) rest fa.assign := by
  cases fa with
  | boolBare two v =>
    cases two <;> cases v <;>
      simp [FlagArg.render, dashes, BoolVar.flagName, parseOne, splitEq, setFlag, formal,
        FlagArg.assign, Config.assign]
  | boolEq two v b text =>
    have hpb := ParseBool_spelling b text h
    cases two <;> cases v <;>
      simp [FlagArg.render, dashes, BoolVar.flagName, parseOne, splitEq, setFlag, formal,
        FlagArg.assign, Config.assign, hpb]
  | strEq two v val =>
    cases two <;> cases v <;>
      simp [FlagArg.render, dashes, StrVar.flagName, parseOne, splitEq, setFlag, formal,
        FlagArg.assign, Config.assign]
  | strNext two v val =>
    cases two <;> cases v <;>
      simp [FlagArg.render, dashes, StrVar.flagName, parseOne, splitEq, setFlag, formal,
        FlagArg.assign, Config.assign]

/-- Where the flags end, `parseOne` stops and leaves the program's arguments. -/
theorem parseOne_tail (c : Config) (tail left : List String) (h : EndsFlags tail left) :
    parseOne c tail = .stop left := by
  rcases h with ⟨h1, h2⟩ | ⟨rest, h1, h2⟩ | ⟨s, rest, h1, h2, h3⟩
  · subst h1 h2
    rfl
  · subst h1 h2
    simp [parseOne]
  · subst h1 h2
    cases hs : s.data with
    | nil => simp [parseOne, hs]
    | cons c0 l =>
      cases l with
      | nil => simp [parseOne, hs]
      | cons c1 tl =>
        have hc : c0 ≠ '-' := by
          rcases h3 with h3 | h3
          · simp only [hs, List.length_cons] at h3
            omega
          · simpa [hs] using h3
        simp [parseOne, hs, hc]

/-- A flag occupies at least one argument. -/
theorem FlagArg.render_length (fa : FlagArg) : 1 ≤ fa.render.length := by
  cases fa <;> simp [FlagArg.render]

/-- The loop of `flag.Parse` on a command line written flag by flag: each flag
is stored in turn and the arguments after the flags are left. -/
theorem parseLoop_render (flags : List FlagArg) (tail left : List String)
    (hflags : ∀ fa ∈ flags, fa.WellFormed) (htail : EndsFlags tail left)
    (n : Nat) (c : Config) (log : List Assign)
    (hn : (renderAll flags ++ tail).length < n) :
    parseLoop n c (renderAll flags ++ tail) log
      = .ok { cfg := applySets c (flags.map FlagArg.assign), args := left,
              sets := log ++ flags.map FlagArg.assign } := by
  induction flags generalizing n c log with
  | nil =>
    cases n with
    | zero => omega
    | succ m =>
      simp only [renderAll, List.nil_append, parseLoop, parseOne_tail c tail left htail]
      simp [applySets]
  | cons fa fs ih =>
    cases n with
    | zero => omega
    | succ m =>
      have hfa : fa.WellFormed := hflags fa (List.mem_cons_self _ _)
      have hfs : ∀ fb ∈ fs, fb.WellFormed := fun fb hfb => hflags fb (List.mem_cons_of_mem _ hfb)
      have hlen := FlagArg.render_length fa
      simp only [renderAll, List.append_assoc, List.length_append] at hn
      simp only [renderAll, List.append_assoc, parseLoop,
        parseOne_render c fa (renderAll fs ++ tail) hfa]
      rw [ih hfs m (c.assign fa.assign) (log ++ [fa.assign])
        (by simp only [List.length_append]; omega)]
      simp [applySets]

/-- The result of `flag.Parse` on a command line written flag by flag. -/
theorem Parse_render (flags : List FlagArg) (tail left : List String)
    (hflags : ∀ fa ∈ flags, fa.WellFormed) (htail : EndsFlags tail left) (c : Config) :
    Parse c (renderAll flags ++ tail)
      = .ok { cfg := applySets c (flags.map FlagArg.assign), args := left,
              sets := flags.map FlagArg.assign } := by
  unfold Parse
  rw [parseLoop_render flags tail left hflags htail _ c [] (Nat.lt_succ_self _)]
  simp

/-! ## The claims -/

/-- The text `handle` writes is never empty. -/
theorem greeting_ne_empty (p : String) : p ++ " World!\n" ≠ "" := by
  intro h
  have hd := congrArg String.data h
  simp at hd

/-- What `handle` leaves in the writer, by the method of the request the writer
answers. -/
theorem handle_eq (c : Config) (req req2 : Request) :
    handle c (ResponseWriter.fresh req) req2 =
      { req := req
        handlerHeader := [("Content-Type", ["text/plain"])]
        wroteHeader := true
        status := 200
        cwHeader := [("Content-Type", ["text/plain"])]
        body := if req.method = "HEAD" then "" else c.Prefix ++ " World!\n" } := by
  have hk : CanonicalMIMEHeaderKey "content-type" = "Content-Type" := by decide
  have hne := greeting_ne_empty c.Prefix
  by_cases hm : req.method = "HEAD"
  · simp [handle, ResponseWriter.headerSet, ResponseWriter.Write, ResponseWriter.WriteHeader,
      ResponseWriter.fresh, Header.Set, hk, hne, hm, bodyAllowedForStatus]
  · simp [handle, ResponseWriter.headerSet, ResponseWriter.Write, ResponseWriter.WriteHeader,
      ResponseWriter.fresh, Header.Set, hk, hne, hm, bodyAllowedForStatus]

/-- C1, as the code has it: for every prefix `p` (the empty one included) and
every request, `handle` answers with status 200 and the header
`Content-Type: text/plain`; for every request whose method is not HEAD the body
is `p` followed by the seven characters of " World!" and a newline, nothing
before or after, the same for any two such requests; for a HEAD request no body
bytes are sent.  `handle` itself never reads the request. -/
theorem handle_response (p : String) (c : Config) (req : Request) :
    (handle { c with Prefix := p } (ResponseWriter.fresh req) req).wroteHeader = true ∧
    (handle { c with Prefix := p } (ResponseWriter.fresh req) req).status = 200 ∧
    (handle { c with Prefix := p } (ResponseWriter.fresh req) req).cwHeader.Get "content-type"
      = "text/plain" ∧
    ("Content-Type", ["text/plain"])
      ∈ (handle { c with Prefix := p } (ResponseWriter.fresh req) req).cwHeader ∧
    (req.method ≠ "HEAD" →
      (handle { c with Prefix := p } (ResponseWriter.fresh req) req).body = p ++ " World!\n" ∧
      (handle { c with Prefix := p } (ResponseWriter.fresh req) req).body.data
        = p.data ++ [' ', 'W', 'o', 'r', 'l', 'd', '!', '\n']) ∧
    (req.method = "HEAD" →
      (handle { c with Prefix := p } (ResponseWriter.fresh req) req).body = "") ∧
    " World!".length = 7 ∧
    (∀ req2 : Request,
      (handle { c with Prefix := p } (ResponseWriter.fresh req2) req2).status
        = (handle { c with Prefix := p } (ResponseWriter.fresh req) req).status ∧
      (handle { c with Prefix := p } (ResponseWriter.fresh req2) req2).cwHeader
        = (handle { c with Prefix := p } (ResponseWriter.fresh req) req).cwHeader ∧
      (req.method ≠ "HEAD" → req2.method ≠ "HEAD" →
        (handle { c with Prefix := p } (ResponseWriter.fresh req2) req2).body
          = (handle { c with Prefix := p } (ResponseWriter.fresh req) req).body)) ∧
    (∀ (res : ResponseWriter) (req2 : Request),
      handle { c with Prefix := p } res req2 = handle { c with Prefix := p } res req) := by
  have hk : CanonicalMIMEHeaderKey "content-type" = "Content-Type" := by decide
  refine ⟨?_, ?_, ?_, ?_, fun hm => ⟨?_, ?_⟩, fun hm => ?_, by decide, fun req2 => ⟨?_, ?_, ?_⟩,
    fun _ _ => rfl⟩
  · rw [handle_eq]
  · rw [handle_eq]
  · rw [handle_eq]
    simp [Header.Get, hk]
  · rw [handle_eq]
    simp
  · rw [handle_eq]
    simp [hm]
  · rw [handle_eq]
    simp [hm]
  · rw [handle_eq]
    simp [hm]
  · rw [handle_eq, handle_eq]
  · rw [handle_eq, handle_eq]
  · intro hm hm2
    rw [handle_eq, handle_eq]
    simp [hm, hm2]

/-- A run for C1: a POST request with a body, prefix "Hello". -/
theorem handle_response_witness :
    (handle defaults (ResponseWriter.fresh
        { method := "POST", path := "/x", headers := [("Accept", "*/*")], body := "data" })
        { method := "POST", path := "/x", headers := [("Accept", "*/*")], body := "data" }).body
      = "Hello World!\n" ∧
    (handle defaults (ResponseWriter.fresh
        { method := "POST", path := "/x", headers := [("Accept", "*/*")], body := "data" })
        { method := "POST", path := "/x", headers := [("Accept", "*/*")], body := "data" }).status
      = 200 :=
  ⟨((handle_response "Hello" defaults
      { method := "POST", path := "/x", headers := [("Accept", "*/*")], body := "data" }).2.2.2.2.1
      (by decide)).1,
   (handle_response "Hello" defaults
      { method := "POST", path := "/x", headers := [("Accept", "*/*")], body := "data" }).2.1⟩

/-- C1 as stated fails: with prefix "Hello" a HEAD request is answered with
status 200 and the header but with an empty body, not "Hello World!" and a
newline, and so not with the response a GET request gets. -/
theorem handle_head_no_body :
    (handle defaults (ResponseWriter.fresh
        { method := "HEAD", path := "/", headers := [], body := "" })
        { method := "HEAD", path := "/", headers := [], body := "" }).status = 200 ∧
    (handle defaults (ResponseWriter.fresh
        { method := "HEAD", path := "/", headers := [], body := "" })
        { method := "HEAD", path := "/", headers := [], body := "" }).body = "" ∧
    (handle defaults (ResponseWriter.fresh
        { method := "HEAD", path := "/", headers := [], body := "" })
        { method := "HEAD", path := "/", headers := [], body := "" }).body
      ≠ defaults.Prefix ++ " World!\n" ∧
    (handle defaults (ResponseWriter.fresh
        { method := "GET", path := "/", headers := [], body := "" })
        { method := "GET", path := "/", headers := [], body := "" }).body = "Hello World!\n" := by
  refine ⟨by decide, by decide, by decide, by decide⟩

/-- C7: `verboseVersion` is the branch, "-", the date, "-", the version tag,
"-" and the commit hash, in this order; with no metadata embedded it is the
three characters "---". -/
theorem verboseVersion_format (brch date vers hash : String) :
    verboseVersion { brch := brch, date := date, vers := vers, hash := hash }
      = brch ++ "-" ++ date ++ "-" ++ vers ++ "-" ++ hash ∧
    (verboseVersion { brch := brch, date := date, vers := vers, hash := hash }).data
      = brch.data ++ '-' :: (date.data ++ '-' :: (vers.data ++ '-' :: hash.data)) ∧
    verboseVersion { brch := "", date := "", vers := "", hash := "" } = "---" ∧
    "---".length = 3 := by
  refine ⟨rfl, ?_, by decide, by decide⟩
  simp [verboseVersion]

/-- C9: the dump of `printConfig` is exactly the three lines `VERBOSE=` with
true or false, `LISTEN=` with the listen address and `PREFIX=` with the
prefix, in this order, each ended by a newline; when `main` prints it, the
values are those of the effective configuration. -/
theorem printConfig_dump (c : Config) :
    stdoutOf (printConfig c)
      = "VERBOSE=" ++ (if c.Verbose then "true" else "false") ++ "\n"
        ++ "LISTEN=" ++ c.Listen ++ "\n"
        ++ "PREFIX=" ++ c.Prefix ++ "\n" ∧
    (∀ (b : Build) (env : Env) (args : List String) (L : Server → Option String) (r : Parsed),
      effective env args = some r → r.cfg.Verbose = true →
        ∃ rest, (main b env args L).trace = printConfig r.cfg ++ rest) := by
  constructor
  · apply String.ext
    obtain ⟨v, _, _, _⟩ := c
    cases v <;> simp [printConfig, stdoutOf, fmtBool]
  · intro b env args L r h hv
    rw [main_of_effective b env args L r h]
    unfold mainAfterParse
    simp only [hv, if_true]
    cases hver : r.cfg.Version with
    | true => exact ⟨_, rfl⟩
    | false =>
      cases hrun : run r.cfg L with
      | mk evs err =>
        cases err with
        | none => exact ⟨evs, by simp⟩
        | some e => exact ⟨evs ++ [.stderr (e ++ "\n")], by simp⟩

/-- A run for C9: PREFIX=Env in the environment, `-verbose -listen=:9` on the
command line; the dump shows the values after both layers. -/
theorem printConfig_dump_witness :
    stdoutOf (printConfig { Verbose := true, Prefix := "Env", Listen := ":9", Version := false })
      = "VERBOSE=true\nLISTEN=:9\nPREFIX=Env\n" ∧
    ∃ rest, (main { brch := "", date := "", vers := "", hash := "" } (envOf [("PREFIX", "Env")])
        ["-verbose", "-listen=:9"] (fun _ => none)).trace
      = printConfig { Verbose := true, Prefix := "Env", Listen := ":9", Version := false }
        ++ rest :=
  ⟨by rw [(printConfig_dump _).1]; decide,
   (printConfig_dump defaults).2 { brch := "", date := "", vers := "", hash := "" }
      (envOf [("PREFIX", "Env")]) ["-verbose", "-listen=:9"] (fun _ => none)
      { cfg := { Verbose := true, Prefix := "Env", Listen := ":9", Version := false },
        args := [],
        sets := [.bool .Verbose true, .str .Listen ":9"] }
      (by decide) (by decide)⟩

/-- C10: `main` ends with status 1 exactly when both configuration layers
complete, the version was not requested and `run` returns an error; it then
ends through `os.Exit(1)` right after writing the error and a newline to the
error stream. -/
theorem exit_one_iff_run_failed (b : Build) (env : Env) (args : List String)
    (L : Server → Option String) :
    ((main b env args L).term.status = 1 ↔
      ∃ r e, effective env args = some r ∧ r.cfg.Version = false ∧ (run r.cfg L).2 = some e) ∧
    (∀ r e, effective env args = some r → r.cfg.Version = false → (run r.cfg L).2 = some e →
      (main b env args L).term = .osExit 1 ∧
      (main b env args L).trace
        = (if r.cfg.Verbose then printConfig r.cfg else []) ++ (run r.cfg L).1
            ++ [.stderr (e ++ "\n")]) := by
  have key : ∀ r e, effective env args = some r → r.cfg.Version = false →
      (run r.cfg L).2 = some e →
      main b env args L =
        { trace := (if r.cfg.Verbose then printConfig r.cfg else []) ++ (run r.cfg L).1
            ++ [.stderr (e ++ "\n")],
          term := .osExit 1 } := by
    intro r e h hv hr
    rw [main_of_effective b env args L r h]
    unfold mainAfterParse
    cases hrun : run r.cfg L with
    | mk evs err =>
      rw [hrun] at hr
      simp only at hr
      subst hr
      simp [hv]
  constructor
  · constructor
    · intro hs
      cases heff : effective env args with
      | none => exact absurd hs (main_of_not_effective b env args L heff)
      | some r =>
        rw [main_of_effective b env args L r heff] at hs
        unfold mainAfterParse at hs
        cases hver : r.cfg.Version with
        | true => simp [hver, Termination.status] at hs
        | false =>
          cases hrun : run r.cfg L with
          | mk evs err =>
            cases err with
            | none => simp [hver, hrun, Termination.status] at hs
            | some e => exact ⟨r, e, rfl, hver, by rw [hrun]⟩
    · rintro ⟨r, e, h, hv, hr⟩
      rw [key r e h hv hr]
      rfl
  · intro r e h hv hr
    rw [key r e h hv hr]
    exact ⟨rfl, rfl⟩

/-- A run for C10: the listener cannot bind, `main` reports it and exits 1. -/
theorem exit_one_iff_run_failed_witness :
    (main { brch := "", date := "", vers := "", hash := "" } (envOf [("LISTEN", ":80")]) []
        (fun _ => some "listen tcp :80: bind: permission denied")).term = .osExit 1 ∧
    (main { brch := "", date := "", vers := "", hash := "" } (envOf [("LISTEN", ":80")]) []
        (fun _ => some "listen tcp :80: bind: permission denied")).trace
      = [.listenAndServe ":80", .stderr "listen tcp :80: bind: permission denied\n"] := by
  have h := (exit_one_iff_run_failed { brch := "", date := "", vers := "", hash := "" }
    (envOf [("LISTEN", ":80")]) [] (fun _ => some "listen tcp :80: bind: permission denied")).2
    { cfg := { defaults with Listen := ":80" }, args := [], sets := [] }
    "listen tcp :80: bind: permission denied" (by decide) (by decide) (by rfl)
  refine ⟨h.1, ?_⟩
  rw [h.2]
  decide

/-- C5: `parseEnv` panics exactly when VERSION or VERBOSE is set to a text
that does not parse as a boolean; then, for every command line, the whole run
is that panic: the command line is not looked at, nothing is written to
standard output, the listener is not started, and the exit status is 2. -/
theorem bad_bool_env_is_fatal (env : Env) :
    ((∃ p, parseEnv env defaults = .error p) ↔
      ((∃ s, env "VERSION" = some s ∧ ParseBool s = none) ∨
       (∃ s, env "VERBOSE" = some s ∧ ParseBool s = none))) ∧
    (((∃ s, env "VERSION" = some s ∧ ParseBool s = none) ∨
       (∃ s, env "VERBOSE" = some s ∧ ParseBool s = none)) →
      ∃ p, parseEnv env defaults = .error p ∧
        ∀ (b : Build) (args : List String) (L : Server → Option String),
          main b env args L = { trace := [.panicReport p], term := .panicked } ∧
          effective env args = none ∧
          stdoutOf (main b env args L).trace = "" ∧
          (∀ e ∈ (main b env args L).trace, e.isStdout = false ∧ e.isListen = false) ∧
          (main b env args L).term.status = 2 ∧
          (main b env args L).term.status ≠ 0) := by
  refine ⟨parseEnv_error_iff env defaults, fun hbad => ?_⟩
  obtain ⟨p, hp⟩ := (parseEnv_error_iff env defaults).2 hbad
  refine ⟨p, hp, fun b args L => ?_⟩
  have hm : main b env args L = { trace := [.panicReport p], term := .panicked } := by
    unfold main
    rw [hp]
  have he : effective env args = none := by
    unfold effective
    rw [hp]
  rw [hm]
  refine ⟨rfl, he, rfl, ?_, rfl, by simp [Termination.status]⟩
  intro e hmem
  simp only [List.mem_singleton] at hmem
  subst hmem
  exact ⟨rfl, rfl⟩

/-- A run for C5: VERBOSE=notabool with the valid flag `-verbose=true`; the
empty text is no boolean either. -/
theorem bad_bool_env_is_fatal_witness :
    ParseBool "notabool" = none ∧ ParseBool "" = none ∧
    ∃ p, parseEnv (envOf [("VERBOSE", "notabool")]) defaults = .error p ∧
      ∀ (b : Build) (args : List String) (L : Server → Option String),
        main b (envOf [("VERBOSE", "notabool")]) args L
            = { trace := [.panicReport p], term := .panicked } ∧
          effective (envOf [("VERBOSE", "notabool")]) args = none ∧
          stdoutOf (main b (envOf [("VERBOSE", "notabool")]) args L).trace = "" ∧
          (∀ e ∈ (main b (envOf [("VERBOSE", "notabool")]) args L).trace,
            e.isStdout = false ∧ e.isListen = false) ∧
          (main b (envOf [("VERBOSE", "notabool")]) args L).term.status = 2 ∧
          (main b (envOf [("VERBOSE", "notabool")]) args L).term.status ≠ 0 :=
  ⟨by decide, by decide,
    (bad_bool_env_is_fatal (envOf [("VERBOSE", "notabool")])).2
      (Or.inr ⟨"notabool", by decide, by decide⟩)⟩

/-- C3: without a flag for it, the effective prefix is the value of PREFIX
when set (any text, the empty one included) and "Hello" otherwise, and the
effective listen address is the value of LISTEN when set and "0.0.0.0:8080"
otherwise; `parseString` stores the variable's value into the one setting it
is called for and leaves every other setting as it was. -/
theorem env_or_default_without_flag (env : Env) (args : List String) (r : Parsed)
    (h : effective env args = some r) :
    ((∀ s, Assign.str .Prefix s ∉ r.sets) → r.cfg.Prefix = (env "PREFIX").getD "Hello") ∧
    ((∀ s, Assign.str .Listen s ∉ r.sets) → r.cfg.Listen = (env "LISTEN").getD "0.0.0.0:8080") ∧
    (∀ (key : String) (v : StrVar) (c : Config),
      (parseString env key v c).getStr v = (env key).getD (c.getStr v) ∧
      (∀ w, w ≠ v → (parseString env key v c).getStr w = c.getStr w) ∧
      (∀ w, (parseString env key v c).getBool w = c.getBool w)) := by
  obtain ⟨c0, he, hb, hs⟩ := effective_no_flag env args r h
  obtain ⟨-, -, hP, hL⟩ := parseEnv_ok env defaults c0 he
  refine ⟨fun hno => ?_, fun hno => ?_, fun key v c => ?_⟩
  · have := hs .Prefix hno
    simp only [Config.getStr] at this
    rw [this, hP]
    rfl
  · have := hs .Listen hno
    simp only [Config.getStr] at this
    rw [this, hL]
    rfl
  · unfold parseString
    cases env key with
    | none => simp
    | some val =>
      refine ⟨?_, ?_, ?_⟩
      · cases v <;> rfl
      · intro w hw
        cases v <;> cases w <;> simp_all [Config.setStr, Config.getStr]
      · intro w
        cases v <;> cases w <;> rfl

/-- A run for C3: PREFIX=Env, LISTEN unset, no flags. -/
theorem env_or_default_without_flag_witness :
    effective (envOf [("PREFIX", "Env")]) []
      = some { cfg := { defaults with Prefix := "Env" }, args := [], sets := [] } ∧
    effective (envOf []) [] = some { cfg := defaults, args := [], sets := [] } ∧
    (({ cfg := { defaults with Prefix := "Env" }, args := [], sets := [] } : Parsed).cfg.Prefix
      = "Env") ∧
    (({ cfg := { defaults with Prefix := "Env" }, args := [], sets := [] } : Parsed).cfg.Listen
      = "0.0.0.0:8080") := by
  have h := env_or_default_without_flag (envOf [("PREFIX", "Env")]) []
    { cfg := { defaults with Prefix := "Env" }, args := [], sets := [] } (by decide)
  exact ⟨by decide, by decide, h.1 (by simp), h.2.1 (by simp)⟩

/-- C2: in an environment whose VERSION and VERBOSE (when set) parse as
booleans, take any command line written as a list of well-formed flags
(`-name`, `-name=value` or `-name value`, with one or two minus signs),
followed by nothing, by `--`, or by a first argument that is no flag.  Then
`parseEnv` and `flag.Parse` complete, and every setting for which the command
line gives a flag holds the value of the last flag given for it, whatever the
environment holds.  For every command line on which `flag.Parse` completes the
stores made depend on the command line only, and each stored-into setting holds
the latest value stored. -/
theorem flags_override_environment (env : Env) (flags : List FlagArg)
    (tail left : List String)
    (hVersion : ∀ s, env "VERSION" = some s → ParseBool s ≠ none)
    (hVerbose : ∀ s, env "VERBOSE" = some s → ParseBool s ≠ none)
    (hflags : ∀ fa ∈ flags, fa.WellFormed) (htail : EndsFlags tail left) :
    (∃ r, effective env (renderAll flags ++ tail) = some r ∧ r.args = left ∧
      (∀ pre fa post v b, flags = pre ++ fa :: post → fa.assign = .bool v b →
        (∀ fb ∈ post, ∀ b2, fb.assign ≠ .bool v b2) → r.cfg.getBool v = b) ∧
      (∀ pre fa post v s, flags = pre ++ fa :: post → fa.assign = .str v s →
        (∀ fb ∈ post, ∀ s2, fb.assign ≠ .str v s2) → r.cfg.getStr v = s)) ∧
    (∀ (args : List String) (r : Parsed), effective env args = some r →
      (∀ v pre post b, r.sets = pre ++ Assign.bool v b :: post →
        (∀ b2, Assign.bool v b2 ∉ post) → r.cfg.getBool v = b) ∧
      (∀ v pre post s, r.sets = pre ++ Assign.str v s :: post →
        (∀ s2, Assign.str v s2 ∉ post) → r.cfg.getStr v = s) ∧
      (∀ env2 r2, effective env2 args = some r2 → r2.sets = r.sets)) ∧
    (∀ v : String, (effective env ["-prefix=" ++ v]).map (fun r => r.cfg.Prefix) = some v) ∧
    (∀ v : String, (effective env ["-listen=" ++ v]).map (fun r => r.cfg.Listen) = some v) ∧
    (effective env ["-verbose"]).map (fun r => r.cfg.Verbose) = some true ∧
    (effective env ["-verbose=false"]).map (fun r => r.cfg.Verbose) = some false ∧
    (effective env ["-version"]).map (fun r => r.cfg.Version) = some true ∧
    (effective env ["-version=false"]).map (fun r => r.cfg.Version) = some false := by
  obtain ⟨c0, hc0⟩ := parseEnv_ok_of_valid env defaults hVersion hVerbose
  have hP := Parse_render flags tail left hflags htail c0
  refine ⟨⟨_, (effective_some_iff env _ _).2 ⟨c0, hc0, hP⟩, rfl, ?_, ?_⟩,
    fun args r h => ⟨?_, ?_, ?_⟩, ?_, ?_, ?_, ?_, ?_, ?_⟩
  · intro pre fa post v b hsplit ha hlast
    have hno : ∀ b2, Assign.bool v b2 ∉ post.map FlagArg.assign := by
      intro b2 hmem
      obtain ⟨fb, hfb, hfa⟩ := List.mem_map.1 hmem
      exact hlast fb hfb b2 hfa
    simp only [applySets_getBool]
    rw [hsplit, List.map_append, List.map_cons, ha, lastBool_split v b _ _ hno]
    rfl
  · intro pre fa post v s0 hsplit ha hlast
    have hno : ∀ s2, Assign.str v s2 ∉ post.map FlagArg.assign := by
      intro s2 hmem
      obtain ⟨fb, hfb, hfa⟩ := List.mem_map.1 hmem
      exact hlast fb hfb s2 hfa
    simp only [applySets_getStr]
    rw [hsplit, List.map_append, List.map_cons, ha, lastStr_split v s0 _ _ hno]
    rfl
  · intro v pre post b hs hl
    exact effective_bool_flag env args r h v pre post b hs hl
  · intro v pre post s hs hl
    exact effective_str_flag env args r h v pre post s hs hl
  · intro env2 r2 h2
    exact (effective_sets env env2 args r r2 h h2).1
  · intro v
    simp [effective, hc0, Parse_single _ _ _ _ (parseOne_prefix_eq c0 v []), Config.setStr]
  · intro v
    simp [effective, hc0, Parse_single _ _ _ _ (parseOne_listen_eq c0 v []), Config.setStr]
  · have h1 : parseOne c0 ["-verbose"] = .seen (c0.setBool .Verbose true) [] (.bool .Verbose true) := by
      simp [parseOne, splitEq, setFlag, formal]
    simp [effective, hc0, Parse_single _ _ _ _ h1, Config.setBool]
  · have h1 : parseOne c0 ["-verbose=false"]
        = .seen (c0.setBool .Verbose false) [] (.bool .Verbose false) := by
      simp [parseOne, splitEq, setFlag, formal, ParseBool]
    simp [effective, hc0, Parse_single _ _ _ _ h1, Config.setBool]
  · have h1 : parseOne c0 ["-version"] = .seen (c0.setBool .Version true) [] (.bool .Version true) := by
      simp [parseOne, splitEq, setFlag, formal]
    simp [effective, hc0, Parse_single _ _ _ _ h1, Config.setBool]
  · have h1 : parseOne c0 ["-version=false"]
        = .seen (c0.setBool .Version false) [] (.bool .Version false) := by
      simp [parseOne, splitEq, setFlag, formal, ParseBool]
    simp [effective, hc0, Parse_single _ _ _ _ h1, Config.setBool]

/-- A run for C2: PREFIX=Env, VERBOSE=true and LISTEN=:1 in the environment; the
command line `-verbose=0 --prefix Other -listen=:2 -prefix=Flag -version=true
-- -prefix=Late` gives prefix "Flag", verbose false, listen ":2" and version
true, and leaves `-prefix=Late` to the program. -/
theorem flags_override_environment_witness :
    effective (envOf [("PREFIX", "Env"), ("VERBOSE", "true"), ("LISTEN", ":1")])
        ["-verbose=0", "--prefix", "Other", "-listen=:2", "-prefix=Flag", "-version=true",
         "--", "-prefix=Late"]
      = some { cfg := { Verbose := false, Prefix := "Flag", Listen := ":2", Version := true },
               args := ["-prefix=Late"],
               sets := [.bool .Verbose false, .str .Prefix "Other", .str .Listen ":2",
                        .str .Prefix "Flag", .bool .Version true] } ∧
    ∃ r, effective (envOf [("PREFIX", "Env"), ("VERBOSE", "true"), ("LISTEN", ":1")])
          (renderAll [.boolEq false .Verbose false "0", .strNext true .Prefix "Other",
              .strEq false .Listen ":2", .strEq false .Prefix "Flag",
              .boolEq false .Version true "true"] ++ ["--", "-prefix=Late"]) = some r ∧
      r.args = ["-prefix=Late"] ∧ r.cfg.getStr .Prefix = "Flag" ∧
      r.cfg.getBool .Version = true := by
  obtain ⟨r, hr, hargs, hb, hs⟩ :=
    (flags_override_environment (envOf [("PREFIX", "Env"), ("VERBOSE", "true"), ("LISTEN", ":1")])
      [.boolEq false .Verbose false "0", .strNext true .Prefix "Other",
        .strEq false .Listen ":2", .strEq false .Prefix "Flag",
        .boolEq false .Version true "true"]
      ["--", "-prefix=Late"] ["-prefix=Late"]
      (by intro s h; simp [envOf] at h)
      (by intro s h; simp [envOf] at h; subst h; decide)
      (by decide)
      (Or.inr (Or.inl ⟨_, rfl, rfl⟩))).1
  refine ⟨by decide, r, hr, hargs, ?_, ?_⟩
  · exact hs [.boolEq false .Verbose false "0", .strNext true .Prefix "Other",
      .strEq false .Listen ":2"] (.strEq false .Prefix "Flag")
      [.boolEq false .Version true "true"] .Prefix "Flag" rfl rfl (by simp [FlagArg.assign])
  · exact hb [.boolEq false .Verbose false "0", .strNext true .Prefix "Other",
      .strEq false .Listen ":2", .strEq false .Prefix "Flag"]
      (.boolEq false .Version true "true") [] .Version true rfl rfl (by simp)

/-- C4, as the code has it: for VERBOSE and VERSION alike, a value that is one
of the twelve spellings `strconv.ParseBool` accepts ("1", "t", "T", "true",
"TRUE", "True" for true; "0", "f", "F", "false", "FALSE", "False" for false)
makes `parseBool` succeed and store that boolean, which is the effective value
when no flag stores into the variable; with no command line and the other
boolean variable parsing, the effective configuration exists. -/
theorem parseBool_accepted_spellings (env : Env) (s : String) (b : Bool)
    (hs : (s ∈ ["1", "t", "T", "true", "TRUE", "True"] ∧ b = true) ∨
          (s ∈ ["0", "f", "F", "false", "FALSE", "False"] ∧ b = false)) :
    (∀ (key : String) (v : BoolVar) (c : Config),
      env key = some s → parseBool env key v c = .ok (c.setBool v b)) ∧
    (∀ (args : List String) (r : Parsed), effective env args = some r →
      (env "VERBOSE" = some s → (∀ b2, Assign.bool .Verbose b2 ∉ r.sets) → r.cfg.Verbose = b) ∧
      (env "VERSION" = some s → (∀ b2, Assign.bool .Version b2 ∉ r.sets) → r.cfg.Version = b)) ∧
    (env "VERBOSE" = some s → (∀ t, env "VERSION" = some t → ParseBool t ≠ none) →
      ∃ r, effective env [] = some r ∧ r.cfg.Verbose = b) ∧
    (env "VERSION" = some s → (∀ t, env "VERBOSE" = some t → ParseBool t ≠ none) →
      ∃ r, effective env [] = some r ∧ r.cfg.Version = b) := by
  have hpb : ParseBool s = some b := by
    rcases hs with ⟨hm, hb⟩ | ⟨hm, hb⟩
    · subst hb
      simp only [List.mem_cons, List.mem_singleton, List.not_mem_nil, or_false] at hm
      rcases hm with h | h | h | h | h | h <;> subst h <;> decide
    · subst hb
      simp only [List.mem_cons, List.mem_singleton, List.not_mem_nil, or_false] at hm
      rcases hm with h | h | h | h | h | h <;> subst h <;> decide
  have hgen : ∀ (args : List String) (r : Parsed), effective env args = some r →
      (env "VERBOSE" = some s → (∀ b2, Assign.bool .Verbose b2 ∉ r.sets) → r.cfg.Verbose = b) ∧
      (env "VERSION" = some s → (∀ b2, Assign.bool .Version b2 ∉ r.sets) → r.cfg.Version = b) := by
    intro args r h
    obtain ⟨c0, he, hb, -⟩ := effective_no_flag env args r h
    obtain ⟨hVn, hVb, -, -⟩ := parseEnv_ok env defaults c0 he
    constructor
    · intro hk hno
      have := hb .Verbose hno
      simp only [Config.getBool] at this
      rw [this, hVb, hk]
      simp [hpb]
    · intro hk hno
      have := hb .Version hno
      simp only [Config.getBool] at this
      rw [this, hVn, hk]
      simp [hpb]
  have hnil : ∀ c0, parseEnv env defaults = .ok c0 →
      effective env [] = some { cfg := c0, args := [], sets := [] } := by
    intro c0 hc0
    simp [effective, hc0, Parse, parseLoop, parseOne]
  refine ⟨fun key v c hk => ?_, hgen, fun hk hother => ?_, fun hk hother => ?_⟩
  · simp [parseBool, hk, hpb]
  · obtain ⟨c0, hc0⟩ := parseEnv_ok_of_valid env defaults hother
      (fun t ht => by rw [hk] at ht; cases ht; simp [hpb])
    exact ⟨_, hnil c0 hc0, (hgen [] _ (hnil c0 hc0)).1 hk (by simp)⟩
  · obtain ⟨c0, hc0⟩ := parseEnv_ok_of_valid env defaults
      (fun t ht => by rw [hk] at ht; cases ht; simp [hpb]) hother
    exact ⟨_, hnil c0 hc0, (hgen [] _ (hnil c0 hc0)).2 hk (by simp)⟩

/-- A run for C4: VERBOSE=TRUE with no flags gives verbose = true. -/
theorem parseBool_accepted_spellings_witness :
    parseBool (envOf [("VERBOSE", "TRUE")]) "VERBOSE" .Verbose defaults
      = .ok (defaults.setBool .Verbose true) ∧
    ∃ r, effective (envOf [("VERBOSE", "TRUE")]) [] = some r ∧ r.cfg.Verbose = true :=
  ⟨(parseBool_accepted_spellings (envOf [("VERBOSE", "TRUE")]) "TRUE" true
      (Or.inl ⟨by decide, rfl⟩)).1 "VERBOSE" .Verbose defaults (by decide),
   (parseBool_accepted_spellings (envOf [("VERBOSE", "TRUE")]) "TRUE" true
      (Or.inl ⟨by decide, rfl⟩)).2.2.1 (by decide) (by intro t ht; simp [envOf] at ht)⟩

/-- C4 as stated fails: "tRuE" is "true" when letter case is ignored, and with
VERBOSE=tRuE `parseBool` panics instead of storing true, so no effective
configuration exists and the process ends with the panic. -/
theorem parseBool_mixed_case_panics :
    "tRuE".data.map Char.toLower = "true".data ∧
    parseBool (envOf [("VERBOSE", "tRuE")]) "VERBOSE" .Verbose defaults
      = .error { func := "ParseBool", text := "tRuE" } ∧
    effective (envOf [("VERBOSE", "tRuE")]) [] = none ∧
    (main { brch := "", date := "", vers := "", hash := "" } (envOf [("VERBOSE", "tRuE")]) []
        (fun _ => none)).term = .panicked := by
  refine ⟨by decide, by decide, by decide, by decide⟩

/-- C6 at the command line `-version -verbose` (empty environment, no build
metadata): standard output holds the three lines of the configuration dump
before the version line, not the version line alone; `main` returns and the
listener is not started. -/
theorem version_with_verbose_stdout :
    stdoutOf (main { brch := "", date := "", vers := "", hash := "" } (envOf [])
        ["-version", "-verbose"] (fun _ => none)).trace
      = "VERBOSE=true\nLISTEN=0.0.0.0:8080\nPREFIX=Hello\n---\n" ∧
    stdoutOf (main { brch := "", date := "", vers := "", hash := "" } (envOf [])
        ["-version", "-verbose"] (fun _ => none)).trace
      ≠ verboseVersion { brch := "", date := "", vers := "", hash := "" } ++ "\n" ∧
    (main { brch := "", date := "", vers := "", hash := "" } (envOf [])
        ["-version", "-verbose"] (fun _ => none)).term = .returned ∧
    (main { brch := "", date := "", vers := "", hash := "" } (envOf [])
        ["-version", "-verbose"] (fun _ => none)).trace.all (fun e => !e.isListen) = true := by
  refine ⟨by decide, by decide, by decide, by decide⟩

/-- C8 at the command line `-verbose` (empty environment): the configuration
dump is written to standard output, so standard output is not empty on the
non-version path; only the startup line goes to the error stream, once and
before the listener is started. -/
theorem verbose_dump_on_stdout :
    (main { brch := "", date := "", vers := "", hash := "" } (envOf []) ["-verbose"]
        (fun _ => none)).trace
      = [.stdout "VERBOSE=true\n", .stdout "LISTEN=0.0.0.0:8080\n", .stdout "PREFIX=Hello\n",
         .stderr "greeter listening at 0.0.0.0:8080\n", .listenAndServe "0.0.0.0:8080"] ∧
    stdoutOf (main { brch := "", date := "", vers := "", hash := "" } (envOf []) ["-verbose"]
        (fun _ => none)).trace
      = "VERBOSE=true\nLISTEN=0.0.0.0:8080\nPREFIX=Hello\n" ∧
    stdoutOf (main { brch := "", date := "", vers := "", hash := "" } (envOf []) ["-verbose"]
        (fun _ => none)).trace ≠ "" := by
  refine ⟨by decide, by decide, by decide⟩

end Greeter
